import Mathlib

set_option maxHeartbeats 1000000
set_option maxRecDepth 4000

/-!
Shallow embedding of the source-sanitization and link-enrichment pipeline of
`backend/rag_system.py` (class `RAGSystem`), together with the URL-safety
validator and the lookup collaborator described by the design spec and
exercised by the test suites of the repository.
-/

/-- Embedded Python runtime values: the shapes that can reach the
source-enhancement loop of `RAGSystem.query` are None, strings, integers,
lists and string-keyed dictionaries. -/
inductive PyVal where
  | none : PyVal
  | str : String → PyVal
  | int : Int → PyVal
  | list : List PyVal → PyVal
  | dict : List (String × PyVal) → PyVal

/-- Embedded Python exceptions raised by the code under study: subscripting a
non-mapping raises TypeError, a missing dictionary key raises KeyError. -/
inductive PyErr where
  | typeError : PyErr
  | keyError : String → PyErr

/-- First-match lookup in a dictionary entry list (Python dictionary access
with string keys; the dictionaries built here carry no duplicate keys). -/
def lookupEntry : List (String × PyVal) → String → Option PyVal
  | [], _ => Option.none
  | (k, v) :: rest, key => if k = key then some v else lookupEntry rest key

/-- Python truthiness of a value, as used by `if lesson_link:`. -/
def PyVal.truthy : PyVal → Bool
  | PyVal.none => false
  | PyVal.str s => !(s == "")
  | PyVal.int n => !(n == 0)
  | PyVal.list xs => !xs.isEmpty
  | PyVal.dict es => !es.isEmpty

/-- Python `is None` on an embedded value. -/
def PyVal.isNone : PyVal → Bool
  | PyVal.none => true
  | _ => false

/-- One iteration of the source-enhancement loop of `RAGSystem.query`
(`rag_system.py` lines 138 to 154).  `source["text"]` is evaluated first
(TypeError on a non-mapping, KeyError when the key is missing); the lookup is
attempted whenever `source.get("lesson_number") is not None`, evaluating
`source["course_title"]` (KeyError when the key is absent) and then
`source["lesson_number"]`; a truthy lookup result is stored verbatim in the
`link` field, with no URL validation.  The second component records the
argument pair of each `get_lesson_link` call the iteration performs. -/
def enhanceOne (lookup : PyVal → PyVal → PyVal) (source : PyVal) :
    Except PyErr (PyVal × List (PyVal × PyVal)) :=
  match source with
  | PyVal.dict entries =>
    match lookupEntry entries "text" with
    | Option.none => Except.error (PyErr.keyError "text")
    | some text =>
      if ((lookupEntry entries "lesson_number").getD PyVal.none).isNone then
        Except.ok (PyVal.dict [("text", text), ("link", PyVal.none)], [])
      else
        match lookupEntry entries "course_title" with
        | Option.none => Except.error (PyErr.keyError "course_title")
        | some ct =>
          match lookupEntry entries "lesson_number" with
          | Option.none => Except.error (PyErr.keyError "lesson_number")
          | some ln =>
            let lesson_link := lookup ct ln
            if lesson_link.truthy then
              Except.ok (PyVal.dict [("text", text), ("link", lesson_link)], [(ct, ln)])
            else
              Except.ok (PyVal.dict [("text", text), ("link", PyVal.none)], [(ct, ln)])
  | _ => Except.error PyErr.typeError

/-- The source-enhancement loop of `RAGSystem.query` (`rag_system.py` lines
137 to 154): the enhanced sources in input order together with the
concatenated `get_lesson_link` call trace.  An exception raised by an
iteration aborts the loop and propagates, as in Python. -/
def enhanceSources (lookup : PyVal → PyVal → PyVal) :
    List PyVal → Except PyErr (List PyVal × List (PyVal × PyVal))
  | [] => Except.ok ([], [])
  | source :: rest =>
    match enhanceOne lookup source with
    | Except.error e => Except.error e
    | Except.ok (item, calls) =>
      match enhanceSources lookup rest with
      | Except.error e => Except.error e
      | Except.ok (items, moreCalls) => Except.ok (item :: items, calls ++ moreCalls)

/-- The Source Normalizer exactly as the spec words it (section 4.2): keep
the entries that are mappings containing a `text` key, in order, and silently
drop everything else.  Stated for comparison against the behavior of
`enhanceSources`, the only processing of raw sources the code performs. -/
def normalizeSpec (raw : List PyVal) : List PyVal :=
  raw.filter fun v =>
    match v with
    | PyVal.dict entries => (lookupEntry entries "text").isSome
    | _ => false

/-- Scenario 4 of the spec and `test_defensive_source_validation`: a batch of
invalid raw sources (a bare string, a number, a mapping without a `text` key,
None, an empty list). -/
def scenario4 : List PyVal :=
  [PyVal.str "not a dict", PyVal.int 123, PyVal.dict [("no_text_key", PyVal.int 1)],
   PyVal.none, PyVal.list []]

/-- A character allowed after the first one in a URL scheme token (RFC 3986:
letters, digits, plus, hyphen, dot). -/
def isSchemeTail (c : Char) : Bool :=
  c.isAlphanum || c == '+' || c == '-' || c == '.'

/-- A valid URL scheme token: a letter followed by scheme characters. -/
def validScheme (cs : List Char) : Bool :=
  match cs with
  | [] => false
  | c :: rest => c.isAlpha && rest.all isSchemeTail

/-- Split a character list at its first colon: the characters before it and
the characters after it, or nothing when no colon occurs. -/
def splitAtColon : List Char → Option (List Char × List Char)
  | [] => Option.none
  | c :: rest =>
    if c = (':' : Char) then some ([], rest)
    else
      match splitAtColon rest with
      | some (pre, post) => some (c :: pre, post)
      | Option.none => Option.none

/-- Modelled from the spec: `is_safe_url` is imported from `rag_system` by
both test suites (`test_url_validation.py` and `test_source_rendering.py`)
but the provided `rag_system.py` does not define it.  Spec section 4.1:
return true only when the candidate is a string that parses as an absolute
URL whose scheme, compared case-insensitively, is exactly http or https;
return false for null, the empty string, strings with no recognizable
scheme, and every other scheme. -/
def is_safe_url : Option String → Bool
  | Option.none => false
  | some s =>
    match splitAtColon s.data with
    | Option.none => false
    | some (pre, _) =>
      validScheme pre &&
        (decide (pre.map Char.toLower = "http".data) ||
         decide (pre.map Char.toLower = "https".data))

/-- The spec-side reading of when a candidate is a safe URL: it is a string
that decomposes at a colon into a valid scheme token, containing no colon
itself, that lower-cases to http or https, followed by the rest of the URL. -/
def HasAllowedScheme (c : Option String) : Prop :=
  ∃ s pre post, c = some s ∧ s.data = pre ++ (':' : Char) :: post ∧
    validScheme pre = true ∧
    (pre.map Char.toLower = "http".data ∨ pre.map Char.toLower = "https".data)

/-- Modelled from the spec: `vector_store.py` is not among the provided
sources; spec section 3 (LessonLinkIndex) and the `test_vector_store.py`
suite fix the outcomes `get_lesson_link` distinguishes, including an
exception raised by the underlying catalog. -/
inductive LookupOutcome where
  | found : String → LookupOutcome
  | noLink : LookupOutcome
  | courseMissing : LookupOutcome
  | lessonMissing : LookupOutcome
  | malformedMetadata : LookupOutcome
  | storageError : LookupOutcome

/-- Modelled from the spec: `VectorStore.get_lesson_link` (absent from the
provided sources) returns the stored link when one exists and absorbs every
failure — unknown course, unknown lesson, null stored link, malformed
`lessons_json`, and a storage exception — to null, never raising
(`test_get_lesson_link_exception_handling` and its sibling tests). -/
def get_lesson_link (index : String → Int → LookupOutcome) (ct : String) (ln : Int) :
    Option String :=
  match index ct ln with
  | LookupOutcome.found l => some l
  | _ => Option.none

/-- The function `get_lesson_link` as invoked from the enhancement loop, passing the
raw dictionary values: string and integer arguments are looked up, and a call
with any other argument shapes is absorbed to null by the collaborator. -/
def liftLookup (index : String → Int → LookupOutcome) : PyVal → PyVal → PyVal
  | PyVal.str ct, PyVal.int ln =>
    match get_lesson_link index ct ln with
    | some l => PyVal.str l
    | Option.none => PyVal.none
  | _, _ => PyVal.none

/-- Modelled from the spec: `search_tools.py` (ToolManager) is not among the
provided sources; it accumulates the sources of the last search in a buffer,
`get_last_sources` reads that buffer and `reset_sources` clears it. -/
structure ToolManagerState where
  lastSources : List PyVal

def get_last_sources (tm : ToolManagerState) : List PyVal :=
  tm.lastSources

/-- Modelled from the spec: clearing the accumulated last-sources buffer. -/
def reset_sources (_tm : ToolManagerState) : ToolManagerState :=
  { lastSources := [] }

/-- Observable collaborator events of one `RAGSystem.query` turn. -/
inductive QEvent where
  | lookupCall : PyVal → PyVal → QEvent
  | resetCall : QEvent

/-- How many `reset_sources` calls an event trace holds. -/
def countReset : List QEvent → Nat
  | [] => 0
  | QEvent.resetCall :: rest => countReset rest + 1
  | QEvent.lookupCall _ _ :: rest => countReset rest

/-- The outcome of a normally-returning `RAGSystem.query` turn. -/
structure QueryOut where
  response : String
  sources : List PyVal
  toolManager : ToolManagerState
  events : List QEvent

/-- Lines 133 to 164 of `rag_system.py`: read the accumulated sources, run
the enhancement loop (propagating any exception it raises, in which case
`reset_sources` is never reached), then call `reset_sources` exactly once and
return the response together with the enhanced sources.  The AI response is
produced by an external collaborator and enters as a parameter. -/
def query (lookup : PyVal → PyVal → PyVal) (response : String) (tm : ToolManagerState) :
    Except PyErr QueryOut :=
  match enhanceSources lookup (get_last_sources tm) with
  | Except.error e => Except.error e
  | Except.ok (enhanced, calls) =>
    Except.ok
      { response := response
        sources := enhanced
        toolManager := reset_sources tm
        events := calls.map (fun p => QEvent.lookupCall p.1 p.2) ++ [QEvent.resetCall] }

/-- A processed course; only its identity matters to `add_course_document`. -/
structure Course where
  title : String

/-- Method `RAGSystem.add_course_document` (`rag_system.py` lines 31 to 54): process
the document, add the course metadata and the content chunks to the vector
store, and return the course with the number of chunks created; an exception
raised by any of the three steps is caught and turned into `(None, 0)`.  The
document processor and the vector store are external collaborators and enter
as parameters that may raise. -/
def add_course_document
    (process : String → Except PyErr (Course × List String))
    (addMeta : Course → Except PyErr Unit)
    (addContent : List String → Except PyErr Unit)
    (file_path : String) : Option Course × Nat :=
  match process file_path with
  | Except.error _ => (Option.none, 0)
  | Except.ok (course, chunks) =>
    match addMeta course with
    | Except.error _ => (Option.none, 0)
    | Except.ok _ =>
      match addContent chunks with
      | Except.error _ => (Option.none, 0)
      | Except.ok _ => (some course, chunks.length)

/-- A concrete tool-manager buffer holding one well-formed source. -/
def tmEx : ToolManagerState :=
  { lastSources := [PyVal.dict [("text", PyVal.str "A")]] }

/-- The turn outcome `query` produces on `tmEx` with a lookup returning null. -/
def outEx : QueryOut :=
  { response := "r"
    sources := [PyVal.dict [("text", PyVal.str "A"), ("link", PyVal.none)]]
    toolManager := { lastSources := [] }
    events := [QEvent.resetCall] }

/-- String append concatenates the underlying character lists. -/
theorem string_data_append (s t : String) : (s ++ t).data = s.data ++ t.data := by
  cases s; cases t; rfl

/-- Soundness of `splitAtColon`: a successful split decomposes the list at a
colon whose prefix holds no colon. -/
theorem splitAtColon_sound :
    ∀ (cs pre post : List Char), splitAtColon cs = some (pre, post) →
      cs = pre ++ (':' : Char) :: post ∧ (':' : Char) ∉ pre := by
  intro cs
  induction cs with
  | nil => intro pre post h; simp [splitAtColon] at h
  | cons c rest ih =>
    intro pre post h
    by_cases hc : c = (':' : Char)
    · subst hc
      simp [splitAtColon] at h
      obtain ⟨h1, h2⟩ := h
      subst h1
      subst h2
      simp
    · simp only [splitAtColon, if_neg hc] at h
      cases hs : splitAtColon rest with
      | none => rw [hs] at h; simp at h
      | some pr =>
        obtain ⟨a, b⟩ := pr
        rw [hs] at h
        simp at h
        obtain ⟨h1, h2⟩ := h
        subst h1
        subst h2
        obtain ⟨hr, hn⟩ := ih a b hs
        subst hr
        refine ⟨by simp, ?_⟩
        intro hmem
        rcases List.mem_cons.mp hmem with h3 | h3
        · exact hc h3.symm
        · exact hn h3

/-- Completeness of `splitAtColon`: a decomposition at a colon whose prefix
holds no colon is what the split returns. -/
theorem splitAtColon_complete :
    ∀ (pre post cs : List Char), cs = pre ++ (':' : Char) :: post →
      (':' : Char) ∉ pre → splitAtColon cs = some (pre, post) := by
  intro pre
  induction pre with
  | nil =>
    intro post cs hcs _
    subst hcs
    simp [splitAtColon]
  | cons p pre2 ih =>
    intro post cs hcs hnotin
    subst hcs
    have hp : ¬ p = (':' : Char) := by
      intro hp2
      apply hnotin
      rw [hp2]
      exact List.mem_cons_self _ _
    have hrest := ih post (pre2 ++ (':' : Char) :: post) rfl
      (fun hmem => hnotin (List.mem_cons_of_mem _ hmem))
    simp only [List.cons_append, splitAtColon, if_neg hp, List.append_eq, hrest]

/-- A valid scheme token contains no colon. -/
theorem validScheme_no_colon (pre : List Char) (h : validScheme pre = true) :
    (':' : Char) ∉ pre := by
  cases pre with
  | nil => simp [validScheme] at h
  | cons c rest =>
    simp only [validScheme, Bool.and_eq_true, List.all_eq_true] at h
    intro hmem
    rcases List.mem_cons.mp hmem with h1 | h2
    · rw [← h1] at h
      exact absurd h.1 (by decide)
    · exact absurd (h.2 _ h2) (by decide)

/-- Claim C5: `is_safe_url` returns true exactly when the candidate is a
string whose first-colon scheme token is valid and lower-cases to http or
https; appending anything (query string, fragment, encoded characters) to a
safe URL keeps it safe; and it returns false for null, the empty string,
scheme-less strings, and the javascript, data, vbscript, file and about
schemes in any letter case, while http and https are accepted in any letter
case, with query strings, fragments and percent-encoding not changing the
result. -/
theorem C5_is_safe_url_characterization :
    (∀ c, is_safe_url c = true ↔ HasAllowedScheme c) ∧
    (∀ s t : String, is_safe_url (some s) = true → is_safe_url (some (s ++ t)) = true) ∧
    (is_safe_url Option.none = false ∧
     is_safe_url (some "") = false ∧
     is_safe_url (some "not a url at all") = false ∧
     is_safe_url (some "javascript:alert(1)") = false ∧
     is_safe_url (some "JaVaScRiPt:alert(1)") = false ∧
     is_safe_url (some "data:text/html,alert(1)") = false ∧
     is_safe_url (some "vbscript:msgbox(1)") = false ∧
     is_safe_url (some "file:///etc/passwd") = false ∧
     is_safe_url (some "about:blank") = false ∧
     is_safe_url (some "http://example.com/lesson1") = true ∧
     is_safe_url (some "https://example.com/lesson1") = true ∧
     is_safe_url (some "HtTpS://example.com") = true ∧
     is_safe_url (some "https://example.com/lesson?id=1&page=2") = true ∧
     is_safe_url (some "https://example.com/lesson#section1") = true ∧
     is_safe_url (some "https://example.com/lesson%20with%20spaces") = true) := by
  refine ⟨?_, ?_, ?_⟩
  · intro c
    cases c with
    | none => simp [is_safe_url, HasAllowedScheme]
    | some s =>
      constructor
      · intro h
        simp only [is_safe_url] at h
        cases hsplit : splitAtColon s.data with
        | none => rw [hsplit] at h; simp at h
        | some pr =>
          obtain ⟨pre, post⟩ := pr
          rw [hsplit] at h
          simp only [Bool.and_eq_true, Bool.or_eq_true, decide_eq_true_eq] at h
          obtain ⟨hdecomp, _⟩ := splitAtColon_sound s.data pre post hsplit
          exact ⟨s, pre, post, rfl, hdecomp, h.1, h.2⟩
      · rintro ⟨s2, pre, post, hs2, hdecomp, hvalid, hlower⟩
        injection hs2 with hs2
        subst hs2
        have hsplit := splitAtColon_complete pre post s.data hdecomp
          (validScheme_no_colon pre hvalid)
        simp only [is_safe_url]
        rw [hsplit]
        simp only [Bool.and_eq_true, Bool.or_eq_true, decide_eq_true_eq]
        exact ⟨hvalid, hlower⟩
  · intro s t h
    simp only [is_safe_url] at h ⊢
    cases hsplit : splitAtColon s.data with
    | none => rw [hsplit] at h; simp at h
    | some pr =>
      obtain ⟨pre, post⟩ := pr
      rw [hsplit] at h
      obtain ⟨hdecomp, hnotin⟩ := splitAtColon_sound s.data pre post hsplit
      have hsplit2 : splitAtColon (s ++ t).data = some (pre, post ++ t.data) := by
        apply splitAtColon_complete pre (post ++ t.data) _ _ hnotin
        rw [string_data_append, hdecomp]
        simp
      rw [hsplit2]
      exact h
  · refine ⟨rfl, ?_, ?_, ?_, ?_, ?_, ?_, ?_, ?_, ?_, ?_, ?_, ?_, ?_, ?_⟩ <;> decide

/-- Claim C1, evaluated on the code: when the lookup returns a javascript:
URL for a source carrying both course_title and lesson_number, the
enhancement loop of `RAGSystem.query` copies that URL verbatim into the
link field of the citation (no URL-safety validation is applied) although
`is_safe_url` rejects it. -/
theorem C1_unsafe_link_copied_verbatim :
    enhanceSources (fun _ _ => PyVal.str "javascript:alert(1)")
      [PyVal.dict [("text", PyVal.str "C"), ("course_title", PyVal.str "X"),
                   ("lesson_number", PyVal.int 2)]] =
      Except.ok ([PyVal.dict [("text", PyVal.str "C"),
                              ("link", PyVal.str "javascript:alert(1)")]],
                 [(PyVal.str "X", PyVal.int 2)]) ∧
    is_safe_url (some "javascript:alert(1)") = false :=
  ⟨rfl, by decide⟩

/-- Claim C2, evaluated on the code: the enhancement loop evaluates
`source["text"]` unconditionally, so a non-mapping raw source raises
TypeError and a mapping without a `text` key raises KeyError; the exception
escapes instead of the entry being filtered. -/
theorem C2_malformed_source_raises :
    enhanceSources (fun _ _ => PyVal.none) [PyVal.str "not a dict"] =
        Except.error PyErr.typeError ∧
    enhanceSources (fun _ _ => PyVal.none) [PyVal.int 123] =
        Except.error PyErr.typeError ∧
    enhanceSources (fun _ _ => PyVal.none) [PyVal.none] =
        Except.error PyErr.typeError ∧
    enhanceSources (fun _ _ => PyVal.none) [PyVal.list []] =
        Except.error PyErr.typeError ∧
    enhanceSources (fun _ _ => PyVal.none) [PyVal.dict [("no_text_key", PyVal.int 1)]] =
        Except.error (PyErr.keyError "text") :=
  ⟨rfl, rfl, rfl, rfl, rfl⟩

/-- Claim C3, evaluated on the code: on the all-invalid batch of scenario 4
the claimed normalization would output the empty list, but the loop raises
TypeError at the first entry instead of silently excluding invalid entries. -/
theorem C3_no_silent_exclusion :
    enhanceSources (fun _ _ => PyVal.none) scenario4 = Except.error PyErr.typeError ∧
    normalizeSpec scenario4 = [] :=
  ⟨rfl, rfl⟩

/-- Claim C4, evaluated on the code: for a source whose course_title is an
explicit null and whose lesson_number is 1, the loop checks only
lesson_number, calls the lookup once with the pair (None, 1) — the claim and
`test_missing_course_handling` demand zero calls — and stores the returned
URL as the link. -/
theorem C4_lookup_called_with_null_course :
    enhanceSources (fun _ _ => PyVal.str "https://example.com/lesson1")
      [PyVal.dict [("text", PyVal.str "Some content"), ("course_title", PyVal.none),
                   ("lesson_number", PyVal.int 1)]] =
      Except.ok ([PyVal.dict [("text", PyVal.str "Some content"),
                              ("link", PyVal.str "https://example.com/lesson1")]],
                 [(PyVal.none, PyVal.int 1)]) :=
  rfl

/-- Claim C7, evaluated on the code: a batch holding one valid normalized
source (a mapping with `text` and an integer `lesson_number`, the optional
`course_title` key absent) makes the loop raise KeyError on
`source["course_title"]`, so the enricher emits zero citations for one
normalized source instead of exactly one. -/
theorem C7_enricher_drops_batch :
    enhanceSources (fun _ _ => PyVal.none)
      [PyVal.dict [("text", PyVal.str "T"), ("lesson_number", PyVal.int 1)]] =
      Except.error (PyErr.keyError "course_title") ∧
    normalizeSpec [PyVal.dict [("text", PyVal.str "T"), ("lesson_number", PyVal.int 1)]] =
      [PyVal.dict [("text", PyVal.str "T"), ("lesson_number", PyVal.int 1)]] :=
  ⟨rfl, rfl⟩

/-- Claim C8, evaluated on the code: with lesson_number present, a source
whose course_title is an explicit null is processed (one lookup call, a
citation emitted), while the same source with the course_title key omitted
raises KeyError — absence and explicit null are not interchangeable. -/
theorem C8_absent_and_null_course_title_differ :
    enhanceSources (fun _ _ => PyVal.none)
      [PyVal.dict [("text", PyVal.str "T"), ("course_title", PyVal.none),
                   ("lesson_number", PyVal.int 1)]] =
      Except.ok ([PyVal.dict [("text", PyVal.str "T"), ("link", PyVal.none)]],
                 [(PyVal.none, PyVal.int 1)]) ∧
    enhanceSources (fun _ _ => PyVal.none)
      [PyVal.dict [("text", PyVal.str "T"), ("lesson_number", PyVal.int 1)]] =
      Except.error (PyErr.keyError "course_title") :=
  ⟨rfl, rfl⟩

/-- When the lookup index reports anything but a found link, `get_lesson_link`
absorbs it to null. -/
theorem get_lesson_link_absorbs (index : String → Int → LookupOutcome)
    (ct : String) (ln : Int) (h : ∀ l, index ct ln ≠ LookupOutcome.found l) :
    get_lesson_link index ct ln = Option.none := by
  unfold get_lesson_link
  cases hidx : index ct ln with
  | found l => exact absurd hidx (h l)
  | noLink => rfl
  | courseMissing => rfl
  | lessonMissing => rfl
  | malformedMetadata => rfl
  | storageError => rfl

/-- Claim C6: for a well-formed source whose lesson-link lookup fails in any
way the collaborator distinguishes — the underlying storage raising, the
course or lesson missing, malformed stored metadata, or a null stored link —
the enhancement step returns normally (no exception escapes) and the emitted
link of the emitted citation is null, after exactly the one lookup call. -/
theorem C6_lookup_failure_yields_null_link :
    ∀ (index : String → Int → LookupOutcome) (text ct : String) (ln : Int),
    (∀ l, index ct ln ≠ LookupOutcome.found l) →
    enhanceSources (liftLookup index)
      [PyVal.dict [("text", PyVal.str text), ("course_title", PyVal.str ct),
                   ("lesson_number", PyVal.int ln)]] =
      Except.ok ([PyVal.dict [("text", PyVal.str text), ("link", PyVal.none)]],
                 [(PyVal.str ct, PyVal.int ln)]) := by
  intro index text ct ln h
  have hlift : liftLookup index (PyVal.str ct) (PyVal.int ln) = PyVal.none := by
    simp only [liftLookup, get_lesson_link_absorbs index ct ln h]
  simp [enhanceSources, enhanceOne, lookupEntry, PyVal.isNone, hlift, PyVal.truthy]

/-- Witness for C6 at scenario 5 of the spec: text D, course X, lesson 9,
with the underlying storage of the lookup raising. -/
theorem C6_lookup_failure_witness :
    enhanceSources (liftLookup (fun _ _ => LookupOutcome.storageError))
      [PyVal.dict [("text", PyVal.str "D"), ("course_title", PyVal.str "X"),
                   ("lesson_number", PyVal.int 9)]] =
      Except.ok ([PyVal.dict [("text", PyVal.str "D"), ("link", PyVal.none)]],
                 [(PyVal.str "X", PyVal.int 9)]) :=
  C6_lookup_failure_yields_null_link (fun _ _ => LookupOutcome.storageError) "D" "X" 9
    (fun _ h => LookupOutcome.noConfusion h)

/-- A trace made of lookup calls followed by one reset event counts exactly
one `reset_sources` call. -/
theorem countReset_map_lookup (calls : List (PyVal × PyVal)) :
    countReset (calls.map (fun p => QEvent.lookupCall p.1 p.2) ++ [QEvent.resetCall]) = 1 := by
  induction calls with
  | nil => rfl
  | cons c rest ih => simpa [countReset] using ih

/-- Claim C9: whenever `RAGSystem.query` returns, its event trace holds
exactly one `reset_sources` call — made after the enhancement loop, whatever
number of sources it processed — and the last-sources buffer of the tool manager
is empty, so the sources of this turn cannot reappear in a later turn. -/
theorem C9_reset_called_exactly_once :
    ∀ (lookup : PyVal → PyVal → PyVal) (response : String) (tm : ToolManagerState)
      (out : QueryOut),
    query lookup response tm = Except.ok out →
    countReset out.events = 1 ∧ out.toolManager.lastSources = [] := by
  intro lookup response tm out h
  unfold query at h
  split at h
  · cases h
  · rename_i enhanced calls heq
    injection h with h2
    subst h2
    exact ⟨countReset_map_lookup calls, rfl⟩

/-- Witness for C9 at a concrete turn: one well-formed source in the buffer,
lookup not consulted, one reset event, buffer left empty. -/
theorem C9_reset_witness :
    countReset outEx.events = 1 ∧ outEx.toolManager.lastSources = [] :=
  C9_reset_called_exactly_once (fun _ _ => PyVal.none) "r" tmEx outEx rfl

/-- Claim C10: `RAGSystem.add_course_document` returns the processed course
with the exact number of chunks created when every step succeeds, and
returns the pair (None, 0), propagating nothing, when the document
processing, the metadata insertion or the content insertion raises. -/
theorem C10_add_course_document_contract :
    ∀ (process : String → Except PyErr (Course × List String))
      (addMeta : Course → Except PyErr Unit)
      (addContent : List String → Except PyErr Unit)
      (fp : String),
    (∀ c chunks, process fp = Except.ok (c, chunks) →
       addMeta c = Except.ok () → addContent chunks = Except.ok () →
       add_course_document process addMeta addContent fp = (some c, chunks.length)) ∧
    (∀ e, process fp = Except.error e →
       add_course_document process addMeta addContent fp = (Option.none, 0)) ∧
    (∀ c chunks e, process fp = Except.ok (c, chunks) → addMeta c = Except.error e →
       add_course_document process addMeta addContent fp = (Option.none, 0)) ∧
    (∀ c chunks e, process fp = Except.ok (c, chunks) → addMeta c = Except.ok () →
       addContent chunks = Except.error e →
       add_course_document process addMeta addContent fp = (Option.none, 0)) := by
  intro process addMeta addContent fp
  refine ⟨?_, ?_, ?_, ?_⟩
  · intro c chunks h1 h2 h3
    simp [add_course_document, h1, h2, h3]
  · intro e h1
    simp [add_course_document, h1]
  · intro c chunks e h1 h2
    simp [add_course_document, h1, h2]
  · intro c chunks e h1 h2 h3
    simp [add_course_document, h1, h2, h3]

/-- Witness for C10 on a success run: two chunks processed, both insertions
succeeding. -/
theorem C10_add_course_document_witness :
    add_course_document (fun _ => Except.ok (⟨"T"⟩, ["a", "b"]))
      (fun _ => Except.ok ()) (fun _ => Except.ok ()) "doc.txt" =
      (some (⟨"T"⟩ : Course), 2) :=
  (C10_add_course_document_contract (fun _ => Except.ok (⟨"T"⟩, ["a", "b"]))
      (fun _ => Except.ok ()) (fun _ => Except.ok ()) "doc.txt").1 ⟨"T"⟩ ["a", "b"]
    rfl rfl rfl
